import Mathlib

/-!
Verification of the session / navigation model of a desktop SSH/SFTP
file-manager (single source file `windows_main.py`).

The embedding works on `List Char` (Python `str` values); Python library
functions used by the source (`str.strip`, `str.rstrip("/")`,
`str.startswith`, `posixpath.dirname`, `posixpath.join`,
`posixpath.normpath`, `os.path.join` on Windows, `stat.S_ISDIR`) are
translated here, and external effects (the paramiko SFTP client, the Qt
widgets, the filesystem) are passed in as explicit oracle values
(`Except String _` for calls that may raise, `Bool` oracles for
directory tests).
-/

/-- Python whitespace characters, as used by `str.strip()`. -/
def isPySpace (c : Char) : Bool :=
  c == ' ' || c == '\t' || c == '\n' || c == '\r' || c == '\x0b' || c == '\x0c'

/-- Python `s.strip()`: drop whitespace from both ends. -/
def pyStrip (l : List Char) : List Char :=
  ((l.dropWhile isPySpace).reverse.dropWhile isPySpace).reverse

/-- Python `s.rstrip("/")`: drop trailing slash characters. -/
def rstripSlash (l : List Char) : List Char :=
  (l.reverse.dropWhile (fun c => c == '/')).reverse

/-- The part of `p` up to and including its last `'/'` (empty when `p` has
no slash); this is `p[:p.rfind('/') + 1]` from `posixpath.dirname`. -/
def takeToLastSlash (l : List Char) : List Char :=
  (l.reverse.dropWhile (fun c => c != '/')).reverse

/-- Python `s.startswith(pre)`. -/
def pyStartsWith : List Char → List Char → Bool
  | _, [] => true
  | [], _ :: _ => false
  | c :: t, p :: ps => c == p && pyStartsWith t ps

/-- `posixpath.dirname(p)`: the head up to the last slash, right-stripped
of slashes unless it is empty or consists only of slashes. -/
def posixDirname (p : List Char) : List Char :=
  let head := takeToLastSlash p
  if head.isEmpty then head
  else if head.all (fun c => c == '/') then head
  else rstripSlash head

/-- `posixpath.join(a, b)` for a single second component. -/
def posixJoin (a b : List Char) : List Char :=
  if b.head? == some '/' then b
  else if a.isEmpty || a.getLast? == some '/' then a ++ b
  else a ++ '/' :: b

/-- Python `p.split('/')`. -/
def splitSlash : List Char → List (List Char)
  | [] => [[]]
  | c :: t =>
    match splitSlash t with
    | [] => [[]]
    | w :: rest => if c == '/' then [] :: w :: rest else (c :: w) :: rest

/-- `'/'.join(segs)` (also the spine of `posixpath.join` of many parts). -/
def joinSegs : List (List Char) → List Char
  | [] => []
  | [s] => s
  | s :: t :: r => s ++ '/' :: joinSegs (t :: r)

/-- `posixpath.normpath(p)`: collapse `.`, `..` and repeated slashes
lexically, preserving one or two initial slashes. -/
def posixNormpath (p : List Char) : List Char :=
  if p.isEmpty then ['.']
  else
    let k : Nat :=
      if p.head? == some '/' then
        if pyStartsWith p ['/', '/'] && !(pyStartsWith p ['/', '/', '/']) then 2 else 1
      else 0
    let comps := splitSlash p
    let newComps := comps.foldl
      (fun acc comp =>
        if comp.isEmpty || comp == ['.'] then acc
        else if !(comp == ['.', '.']) || (k == 0 && acc.isEmpty)
              || (!acc.isEmpty && acc.getLast? == some ['.', '.']) then acc ++ [comp]
        else if !acc.isEmpty then acc.dropLast
        else acc)
      []
    let res := List.replicate k '/' ++ joinSegs newComps
    if res.isEmpty then ['.'] else res

/-- `stat.S_ISDIR(m)`: the file-type bits of the mode equal `S_IFDIR`. -/
def S_ISDIR (m : Nat) : Bool := m &&& 61440 == 16384

/-- `os.path.join(path, name)` on Windows (`ntpath.join`), for a `name`
that is a plain relative component (no drive letter, no leading
separator): append `name`, inserting a backslash unless `path` is empty
or already ends in a separator or a drive colon. -/
def ntJoinName (path name : List Char) : List Char :=
  if path.isEmpty then name
  else if path.getLast? == some '\\' || path.getLast? == some '/'
        || path.getLast? == some ':' then path ++ name
  else path ++ '\\' :: name

-- -----------------------------------------------------------------
-- ConnectionTab (source: `windows_main.py`, class ConnectionTab)
-- -----------------------------------------------------------------

/-- One entry returned by `sftp.listdir_attr`: a filename and the raw
`st_mode` bits. -/
structure SFTPAttr where
  filename : List Char
  st_mode : Nat
deriving DecidableEq, Repr

/-- The remote browser widget's visible state: the list items (display
texts) and the label text. -/
structure RemoteBrowser where
  items : List (List Char)
  label : List Char
deriving DecidableEq, Repr

/-- `ConnectionTab.list_remote_files`: clears the list widget, then in a
`try` block adds the parent marker ".." and one item per entry of the
`sftp.listdir_attr` result (directories get a trailing slash) and updates
the label; a raised error is caught and printed (returned here as the
second component), leaving the widget holding only the already-added
parent marker and the label unchanged. -/
def list_remote_files (listing : Except String (List SFTPAttr))
    (remote_path : List Char) (st : RemoteBrowser) :
    RemoteBrowser × Option String :=
  match listing with
  | .ok fs =>
    ({ items := "..".data ::
        fs.map (fun f => f.filename ++ (if S_ISDIR f.st_mode then "/".data else [])),
       label := "Remote: ".data ++ remote_path }, none)
  | .error e => ({ items := ["..".data], label := st.label }, some e)

/-- The parent-navigation expression of `ConnectionTab.remote_double`:
`posixpath.dirname(self.remote_path.rstrip("/")) or "/"`. -/
def parentOf (r : List Char) : List Char :=
  let d := posixDirname (rstripSlash r)
  if d.isEmpty then "/".data else d

/-- `ConnectionTab.remote_double` restricted to its effect on
`remote_path`: the parent marker navigates up; otherwise the joined path
is entered when the `is_dir` oracle (an `sftp.stat` query) says it is a
directory; otherwise the entry is downloaded and opened, leaving the
cursor unchanged. -/
def remote_double (is_dir : List Char → Bool) (name remote_path : List Char) :
    List Char :=
  if name == "..".data then parentOf remote_path
  else
    let path := posixJoin remote_path name
    if is_dir path then path else remote_path

/-- Result of `ConnectionTab.send_term`: the new `remote_path`, how many
remote listing refreshes were triggered, and the texts written to the
shell channel. -/
structure TermResult where
  path : List Char
  refreshes : Nat
  sent : List (List Char)
deriving DecidableEq, Repr

/-- `ConnectionTab.send_term`: strips the input; an empty result is
ignored; a text starting with "cd " updates `remote_path` to
`normpath(join(remote_path, arg))` with `arg` the stripped remainder and
triggers one remote listing refresh; in all non-empty cases the stripped
text plus a newline is written to the shell channel
(`SSHTerminal.send`, a no-op when the channel is absent). -/
def send_term (channel_open : Bool) (text remote_path : List Char) : TermResult :=
  let t := pyStrip text
  if t.isEmpty then { path := remote_path, refreshes := 0, sent := [] }
  else
    let sentMsgs := if channel_open then [t ++ "\n".data] else []
    if pyStartsWith t "cd ".data then
      let arg := pyStrip (t.drop 3)
      { path := posixNormpath (posixJoin remote_path arg), refreshes := 1,
        sent := sentMsgs }
    else { path := remote_path, refreshes := 0, sent := sentMsgs }

/-- `ConnectionTab.delete_remote`: `sftp.remove` is tried; if it raises,
`sftp.rmdir` runs as the handler, so an error raised by `rmdir`
propagates (first component) and the `list_remote_files` refresh after
the `try` is skipped (second component counts refreshes). -/
def delete_remote (removeRes rmdirRes : Except String Unit) :
    Except String Unit × Nat :=
  match removeRes with
  | .ok _ => (.ok (), 1)
  | .error _ =>
    match rmdirRes with
    | .ok _ => (.ok (), 1)
    | .error e => (.error e, 0)

/-- `ConnectionTab.delete_local`: same shape as `delete_remote` with
`os.remove` / `os.rmdir`. -/
def delete_local (removeRes rmdirRes : Except String Unit) :
    Except String Unit × Nat :=
  match removeRes with
  | .ok _ => (.ok (), 1)
  | .error _ =>
    match rmdirRes with
    | .ok _ => (.ok (), 1)
    | .error e => (.error e, 0)

/-- Result of `ConnectionTab.upload_file`. -/
structure UploadResult where
  src : List Char
  dst : List Char
  refreshes : Nat
  error : Option String
  local_path : List Char
  remote_path : List Char
deriving DecidableEq, Repr

/-- `ConnectionTab.upload_file`: builds `src = os.path.join(local_path, n)`
and `dst = posixpath.join(remote_path, n)`, then tries `sftp.put`;
success refreshes the remote listing once, failure pops an error dialog
(the `error` field) and refreshes nothing; the two directory cursors are
untouched either way. -/
def upload_file (putRes : Except String Unit)
    (local_path remote_path name : List Char) : UploadResult :=
  let src := ntJoinName local_path name
  let dst := posixJoin remote_path name
  match putRes with
  | .ok _ => { src := src, dst := dst, refreshes := 1, error := none,
               local_path := local_path, remote_path := remote_path }
  | .error e => { src := src, dst := dst, refreshes := 0, error := some e,
                  local_path := local_path, remote_path := remote_path }

-- -----------------------------------------------------------------
-- SSHTerminal / AppWindow teardown (source: SSHTerminal.close,
-- AppWindow.close_tab)
-- -----------------------------------------------------------------

/-- Trace of `SSHTerminal.close`: `_running` is set to `False`, then
`channel.close()` is attempted inside its own `try` whose handler is
`pass`, so the attempt always happens and nothing ever propagates. -/
structure TermCloseTrace where
  channel_close_attempted : Bool
  raised : Option String
deriving DecidableEq, Repr

namespace SSHTerminal

/-- `SSHTerminal.close`: whatever the channel close does, the error is
swallowed. -/
def close (chanClose : Except String Unit) : TermCloseTrace :=
  match chanClose with
  | .ok _ => { channel_close_attempted := true, raised := none }
  | .error _ => { channel_close_attempted := true, raised := none }

end SSHTerminal

/-- Trace of `AppWindow.close_tab`: which of the three close calls were
attempted, and what (if anything) propagated out of `close_tab`. -/
structure CloseTrace where
  terminal_close_attempted : Bool
  sftp_close_attempted : Bool
  transport_close_attempted : Bool
  raised : Option String
deriving DecidableEq, Repr

/-- `AppWindow.close_tab` for a `ConnectionTab` whose terminal, sftp
client and transport are all present: one `try` block runs
`ssh_terminal.close()` (never raises, see `SSHTerminal.close`), then
`sftp.close()`, then `transport.close()`; the single handler is `pass`,
so nothing propagates, but a raise inside the block skips the remaining
calls. -/
def close_tab (chanClose sftpClose transportClose : Except String Unit) :
    CloseTrace :=
  let tc := SSHTerminal.close chanClose
  match sftpClose with
  | .ok _ =>
    match transportClose with
    | .ok _ => { terminal_close_attempted := tc.channel_close_attempted,
                 sftp_close_attempted := true,
                 transport_close_attempted := true, raised := none }
    | .error _ => { terminal_close_attempted := tc.channel_close_attempted,
                    sftp_close_attempted := true,
                    transport_close_attempted := true, raised := none }
  | .error _ => { terminal_close_attempted := tc.channel_close_attempted,
                  sftp_close_attempted := true,
                  transport_close_attempted := false, raised := none }

-- -----------------------------------------------------------------
-- ConfigDialog / ConnectionTab.connect_all
-- -----------------------------------------------------------------

/-- The text fields of the `ConfigDialog` at the moment OK is pressed. -/
structure DialogFields where
  server : List Char
  port : List Char
  username : List Char
  password : List Char
  keyfile : List Char
  remote_path : List Char
  local_path : List Char
deriving DecidableEq, Repr

/-- A connection profile dict as produced by `ConfigDialog.get_data` and
persisted to `sftp_config.json`. `port` is kept as the raw stripped text
(`int()` of it is applied at connect time in this model). -/
structure Config where
  server : List Char
  port : List Char
  username : List Char
  password : Option (List Char)
  keyfile : Option (List Char)
  remote_path : List Char
  local_path : List Char
deriving DecidableEq, Repr

namespace ConfigDialog

/-- `ConfigDialog.get_data`: strips most fields, keeps the password raw,
turns an empty keyfile into `None`, defaults the remote path to "/". -/
def get_data (f : DialogFields) : Config :=
  { server := pyStrip f.server,
    port := if (pyStrip f.port).isEmpty then "22".data else pyStrip f.port,
    username := pyStrip f.username,
    password := some f.password,
    keyfile := if (pyStrip f.keyfile).isEmpty then none else some (pyStrip f.keyfile),
    remote_path := if (pyStrip f.remote_path).isEmpty then "/".data
                   else pyStrip f.remote_path,
    local_path := pyStrip f.local_path }

end ConfigDialog

/-- The arguments `ConnectionTab.connect_all` passes to the
authentication call `t.connect(username=..., password=...)`. -/
structure AuthCall where
  username : List Char
  password : Option (List Char)
deriving DecidableEq, Repr

/-- The collaborator calls issued by `ConnectionTab.connect_all`: the
transport destination `(cfg["server"], int(cfg.get("port", 22)))` and the
authentication call built from `cfg["username"]` and
`cfg.get("password")` only. -/
structure ConnectCalls where
  transport_server : List Char
  transport_port : List Char
  auth : AuthCall
deriving DecidableEq, Repr

/-- `ConnectionTab.connect_all`, reduced to the calls it makes on the
SSH library: no field of the profile other than server, port, username
and password reaches the collaborator; in particular `keyfile` is never
read. -/
def connect_all (cfg : Config) : ConnectCalls :=
  { transport_server := cfg.server,
    transport_port := cfg.port,
    auth := { username := cfg.username, password := cfg.password } }

-- -----------------------------------------------------------------
-- Persistence (source: AppWindow.load_saved_configs, ThemeManager.load)
-- -----------------------------------------------------------------

/-- JSON values as produced by `json.load`. -/
inductive Json where
  | null : Json
  | bool (b : Bool) : Json
  | num (n : Int) : Json
  | str (s : List Char) : Json
  | arr (l : List Json) : Json
  | obj (kvs : List (List Char × Json)) : Json

/-- Whether a `Json` value is a JSON array (`isinstance(data, list)`). -/
def Json.isArr : Json → Bool
  | .arr _ => true
  | _ => false

/-- The state of a persisted JSON file: `none` when the file does not
exist, `some (.error e)` when opening or parsing it raises, and
`some (.ok j)` when `json.load` returns `j`. -/
abbrev Storage : Type := Option (Except String Json)

/-- `AppWindow.load_saved_configs`: a missing file or a raised exception
yields `[]`; a parsed list is returned as is; any other parsed value is
wrapped into a one-element list (`data if isinstance(data, list) else
[data]`). -/
def load_saved_configs (storage : Storage) : List Json :=
  match storage with
  | none => []
  | some (.error _) => []
  | some (.ok j) =>
    match j with
    | .arr l => l
    | other => [other]

/-- A Python object's `__dict__`: ordered keys with JSON values. -/
abbrev PyDict : Type := List (List Char × Json)

/-- One step of `dict.update`: replace the value at an existing key in
place, or append a new key at the end. -/
def updateKey (b : PyDict) (k : List Char) (v : Json) : PyDict :=
  if b.any (fun kv => kv.1 == k) then
    b.map (fun kv => if kv.1 == k then (k, v) else kv)
  else b ++ [(k, v)]

/-- `base.__dict__.update(data)` for a dict `data`: apply its pairs in
order. -/
def dictUpdate (base upd : PyDict) : PyDict :=
  upd.foldl (fun b kv => updateKey b kv.1 kv.2) base

namespace ThemeManager

/-- The `__dict__` of a freshly constructed `Theme()` (the dataclass
defaults). -/
def defaultTheme : PyDict :=
  [("name".data, .str "Default".data),
   ("bg_color".data, .str "#13111b".data),
   ("text_color".data, .str "#eae6ff".data),
   ("font_family".data, .str "Consolas".data),
   ("font_size".data, .num 11)]

/-- `ThemeManager.load`: a missing theme file, a raised open/parse error,
or a parsed payload on which `__dict__.update` raises (a non-dict; the
exotic case of a parsed list of key/value pairs is not relevant to the
claims and is folded into the default branch) all yield the default
`Theme()`; a parsed JSON object updates the default field dict. -/
def load (storage : Storage) : PyDict :=
  match storage with
  | none => defaultTheme
  | some (.error _) => defaultTheme
  | some (.ok j) =>
    match j with
    | .obj kvs => dictUpdate defaultTheme kvs
    | _ => defaultTheme

end ThemeManager

-- -----------------------------------------------------------------
-- Spec-side path vocabulary
-- -----------------------------------------------------------------

/-- A slash-rooted absolute path, rendered from its segment list:
`renderAbs [] = "/"`, `renderAbs [a, b] = "/a/b"`. -/
def renderAbs (segs : List (List Char)) : List Char := '/' :: joinSegs segs

/-- Well-formed segment lists: every segment is nonempty and contains no
slash. -/
def ValidSegs (segs : List (List Char)) : Prop :=
  ∀ s ∈ segs, s ≠ [] ∧ ∀ c ∈ s, c ≠ '/'

instance : DecidablePred ValidSegs := fun segs =>
  inferInstanceAs (Decidable (∀ s ∈ segs, s ≠ [] ∧ ∀ c ∈ s, c ≠ '/'))

/-- `p` is a slash-rooted path. -/
def isAbsPath (p : List Char) : Prop := p.head? = some '/'

instance : DecidablePred isAbsPath := fun p =>
  inferInstanceAs (Decidable (p.head? = some '/'))

/-- The operations that rewrite `remote_path`: a double click in the
remote browser, or a line typed into the terminal box. -/
inductive NavOp where
  | double (name : List Char) : NavOp
  | term (text : List Char) : NavOp

/-- Apply one navigation operation to the remote cursor. -/
def applyNav (is_dir : List Char → Bool) (channel_open : Bool)
    (op : NavOp) (p : List Char) : List Char :=
  match op with
  | .double n => remote_double is_dir n p
  | .term t => (send_term channel_open t p).path

-- -----------------------------------------------------------------
-- Helper lemmas on the string operations
-- -----------------------------------------------------------------

theorem dropWhile_decomp {α : Type} (p : α → Bool) (l : List α) :
    ∃ xs, l = xs ++ l.dropWhile p := by
  induction l with
  | nil => exact ⟨[], rfl⟩
  | cons a t ih =>
    cases hpa : p a with
    | true =>
      obtain ⟨xs, hx⟩ := ih
      refine ⟨a :: xs, ?_⟩
      simp only [List.dropWhile_cons, hpa, if_true, List.cons_append]
      exact congrArg (a :: ·) hx
    | false =>
      refine ⟨[], ?_⟩
      simp [List.dropWhile_cons, hpa]

theorem head?_append_of_ne_nil {α : Type} {a : List α} (b : List α)
    (h : a ≠ []) : (a ++ b).head? = a.head? := by
  cases a with
  | nil => exact absurd rfl h
  | cons x t => rfl

theorem rstripSlash_concat_slash (l : List Char) :
    rstripSlash (l ++ ['/']) = rstripSlash l := by
  simp [rstripSlash, List.dropWhile_cons]

theorem rstripSlash_concat_ne (l : List Char) (c : Char) (h : c ≠ '/') :
    rstripSlash (l ++ [c]) = l ++ [c] := by
  have hb : (c == '/') = false := by simpa using h
  simp [rstripSlash, List.dropWhile_cons, hb]

theorem rstripSlash_ends_ne (l s : List Char) (hne : s ≠ [])
    (h : ∀ c ∈ s, c ≠ '/') : rstripSlash (l ++ s) = l ++ s := by
  rcases List.eq_nil_or_concat' s with h0 | ⟨t, c, rfl⟩
  · exact absurd h0 hne
  · rw [← List.append_assoc]
    exact rstripSlash_concat_ne _ c (h c (by simp))

theorem rstripSlash_decomp (l : List Char) : ∃ t, l = rstripSlash l ++ t := by
  obtain ⟨xs, hx⟩ := dropWhile_decomp (fun c => c == '/') l.reverse
  refine ⟨xs.reverse, ?_⟩
  rw [rstripSlash]
  conv_lhs => rw [← List.reverse_reverse l, hx]
  rw [List.reverse_append]

theorem rstripSlash_head {s : List Char} (h : rstripSlash s ≠ []) :
    (rstripSlash s).head? = s.head? := by
  obtain ⟨t, ht⟩ := rstripSlash_decomp s
  conv_rhs => rw [ht]
  exact (head?_append_of_ne_nil t h).symm

theorem tls_concat_slash (l : List Char) :
    takeToLastSlash (l ++ ['/']) = l ++ ['/'] := by
  simp [takeToLastSlash, List.dropWhile_cons]

theorem tls_append_noslash (l s : List Char) (h : ∀ c ∈ s, c ≠ '/') :
    takeToLastSlash (l ++ s) = takeToLastSlash l := by
  rw [takeToLastSlash, takeToLastSlash, List.reverse_append,
      List.dropWhile_append_of_pos]
  intro a ha
  have := h a (by simpa using ha)
  simpa using this

theorem tls_decomp (l : List Char) : ∃ t, l = takeToLastSlash l ++ t := by
  obtain ⟨xs, hx⟩ := dropWhile_decomp (fun c => c != '/') l.reverse
  refine ⟨xs.reverse, ?_⟩
  rw [takeToLastSlash]
  conv_lhs => rw [← List.reverse_reverse l, hx]
  rw [List.reverse_append]

theorem tls_head {s : List Char} (h : takeToLastSlash s ≠ []) :
    (takeToLastSlash s).head? = s.head? := by
  obtain ⟨t, ht⟩ := tls_decomp s
  conv_rhs => rw [ht]
  exact (head?_append_of_ne_nil t h).symm

theorem joinSegs_concat (init : List (List Char)) (s : List Char)
    (h : init ≠ []) : joinSegs (init ++ [s]) = joinSegs init ++ '/' :: s := by
  induction init with
  | nil => exact absurd rfl h
  | cons a t ih =>
    cases t with
    | nil => rfl
    | cons b r =>
      have hstep : joinSegs ((b :: r) ++ [s]) = joinSegs (b :: r) ++ '/' :: s :=
        ih (by simp)
      simp only [List.cons_append] at hstep ⊢
      simp [joinSegs, hstep]

theorem joinSegs_cons_head (a : List Char) (t : List (List Char)) :
    ∃ rest, joinSegs (a :: t) = a ++ rest := by
  cases t with
  | nil => exact ⟨[], by simp [joinSegs]⟩
  | cons b r => exact ⟨'/' :: joinSegs (b :: r), rfl⟩

theorem renderAbs_ends_ne (segs : List (List Char)) (h : ValidSegs segs)
    (hne : segs ≠ []) :
    ∃ l c, renderAbs segs = l ++ [c] ∧ c ≠ '/' := by
  rcases List.eq_nil_or_concat' segs with h0 | ⟨init, s, rfl⟩
  · exact absurd h0 hne
  · have hs := h s (by simp)
    rcases List.eq_nil_or_concat' s with h1 | ⟨s', c, rfl⟩
    · exact absurd h1 hs.1
    · have hc : c ≠ '/' := hs.2 c (by simp)
      cases init with
      | nil => exact ⟨'/' :: s', c, by simp [renderAbs, joinSegs], hc⟩
      | cons a t =>
        refine ⟨'/' :: (joinSegs (a :: t) ++ '/' :: s'), c, ?_, hc⟩
        rw [renderAbs, joinSegs_concat _ _ (by simp)]
        simp

theorem rstripSlash_renderAbs (segs : List (List Char)) (h : ValidSegs segs)
    (hne : segs ≠ []) : rstripSlash (renderAbs segs) = renderAbs segs := by
  obtain ⟨l, c, heq, hc⟩ := renderAbs_ends_ne segs h hne
  rw [heq]
  exact rstripSlash_concat_ne l c hc

theorem parentOf_renderAbs (segs : List (List Char)) (h : ValidSegs segs) :
    parentOf (renderAbs segs) = renderAbs segs.dropLast := by
  rcases List.eq_nil_or_concat' segs with rfl | ⟨init, s, rfl⟩
  · decide
  · have hsval := h s (by simp)
    have hvinit : ValidSegs init := fun x hx => h x (by simp [hx])
    rw [List.dropLast_concat]
    have hstrip : rstripSlash (renderAbs (init ++ [s])) = renderAbs (init ++ [s]) :=
      rstripSlash_renderAbs _ h (by simp)
    simp only [parentOf, hstrip]
    cases init with
    | nil =>
      have hre : renderAbs ([] ++ [s]) = ['/'] ++ s := by
        simp [renderAbs, joinSegs]
      have htls : takeToLastSlash (renderAbs ([] ++ [s])) = ['/'] := by
        rw [hre, tls_append_noslash ['/'] s hsval.2]
        decide
      have hdir : posixDirname (renderAbs ([] ++ [s])) = ['/'] := by
        simp only [posixDirname, htls]
        decide
      rw [hdir]
      decide
    | cons a t =>
      have hre : renderAbs ((a :: t) ++ [s]) =
          ((('/' :: joinSegs (a :: t)) ++ ['/']) ++ s) := by
        rw [renderAbs, joinSegs_concat _ _ (by simp)]
        simp
      have htls : takeToLastSlash (renderAbs ((a :: t) ++ [s])) =
          ('/' :: joinSegs (a :: t)) ++ ['/'] := by
        rw [hre, tls_append_noslash _ s hsval.2, tls_concat_slash]
      have hav := h a (by simp)
      obtain ⟨rest, hrest⟩ := joinSegs_cons_head a t
      have hmem : ∃ x, x ∈ ('/' :: joinSegs (a :: t)) ++ ['/'] ∧ (x == '/') = false := by
        cases a with
        | nil => exact absurd rfl hav.1
        | cons ac a' =>
          refine ⟨ac, ?_, by simpa using hav.2 ac (by simp)⟩
          rw [hrest]
          simp
      have hall : ((('/' :: joinSegs (a :: t)) ++ ['/']).all
          (fun c => c == '/')) = false := by
        cases hx : ((('/' :: joinSegs (a :: t)) ++ ['/']).all (fun c => c == '/')) with
        | false => rfl
        | true =>
          obtain ⟨x, hx1, hx2⟩ := hmem
          have := List.all_eq_true.mp hx x hx1
          rw [this] at hx2
          exact absurd hx2 (by simp)
      have hdir : posixDirname (renderAbs ((a :: t) ++ [s])) =
          '/' :: joinSegs (a :: t) := by
        simp only [posixDirname, htls, hall]
        have h1 : ((('/' :: joinSegs (a :: t)) ++ ['/']).isEmpty) = false := by simp
        simp only [h1, Bool.false_eq_true, if_false]
        rw [rstripSlash_concat_slash]
        exact rstripSlash_renderAbs (a :: t) hvinit (by simp)
      rw [hdir]
      simp [renderAbs]

theorem parentOf_concat_slash (r : List Char) :
    parentOf (r ++ ['/']) = parentOf r := by
  simp only [parentOf, rstripSlash_concat_slash]

/-- C4: for every remote path R (rendered from its segment list, with or
without a trailing slash), double-clicking the parent marker ".." moves
`remote_path` to the parent of R (the segment list without its last
segment), and the parent of the root "/" is "/" itself. -/
theorem remote_double_parent_correct (f : List Char → Bool)
    (segs : List (List Char)) (h : ValidSegs segs) :
    remote_double f "..".data (renderAbs segs) = renderAbs segs.dropLast ∧
    remote_double f "..".data (renderAbs segs ++ ['/']) = renderAbs segs.dropLast := by
  have hb : ("..".data == "..".data) = true := by decide
  constructor
  · simp only [remote_double, hb, if_true]
    exact parentOf_renderAbs segs h
  · simp only [remote_double, hb, if_true]
    rw [parentOf_concat_slash]
    exact parentOf_renderAbs segs h

/-- Witness for C4 at the concrete path "/usr/lib": navigating ".."
yields "/usr", also from "/usr/lib/". -/
theorem remote_double_parent_correct_witness :
    ValidSegs [['u', 's', 'r'], ['l', 'i', 'b']] ∧
    (remote_double (fun _ => false) "..".data
        (renderAbs [['u', 's', 'r'], ['l', 'i', 'b']]) =
      renderAbs [['u', 's', 'r'], ['l', 'i', 'b']].dropLast ∧
     remote_double (fun _ => false) "..".data
        (renderAbs [['u', 's', 'r'], ['l', 'i', 'b']] ++ ['/']) =
      renderAbs [['u', 's', 'r'], ['l', 'i', 'b']].dropLast) :=
  ⟨by decide, remote_double_parent_correct (fun _ => false) _ (by decide)⟩

theorem rstripSlash_abs {p : List Char} (hp : p.head? = some '/') :
    rstripSlash p = [] ∨ (rstripSlash p).head? = some '/' := by
  cases hr : rstripSlash p with
  | nil => exact Or.inl rfl
  | cons x xs =>
    right
    rw [← hr, rstripSlash_head (by simp [hr])]
    exact hp

theorem posixDirname_abs {s : List Char} (hs : s.head? = some '/') :
    posixDirname s = [] ∨ (posixDirname s).head? = some '/' := by
  simp only [posixDirname]
  cases h0 : (takeToLastSlash s).isEmpty with
  | true =>
    left
    simp only [h0, if_true]
    simpa [List.isEmpty_iff] using h0
  | false =>
    have hdne : takeToLastSlash s ≠ [] := by
      simpa [List.isEmpty_iff] using h0
    have hdh : (takeToLastSlash s).head? = some '/' := by
      rw [tls_head hdne]; exact hs
    simp only [h0, Bool.false_eq_true, if_false]
    cases hall : (takeToLastSlash s).all (fun c => c == '/') with
    | true =>
      right
      simp only [hall, if_true]
      exact hdh
    | false =>
      simp only [hall, Bool.false_eq_true, if_false]
      cases hr : rstripSlash (takeToLastSlash s) with
      | nil => exact Or.inl rfl
      | cons x xs =>
        right
        rw [← hr, rstripSlash_head (by simp [hr])]
        exact hdh

theorem parentOf_abs {p : List Char} (hp : p.head? = some '/') :
    (parentOf p).head? = some '/' := by
  simp only [parentOf]
  rcases rstripSlash_abs hp with h0 | habs
  · rw [h0]
    decide
  · rcases posixDirname_abs habs with hd0 | hdabs
    · rw [hd0]
      decide
    · have hne : posixDirname (rstripSlash p) ≠ [] := by
        intro hcontra
        rw [hcontra] at hdabs
        simp at hdabs
      have hie : (posixDirname (rstripSlash p)).isEmpty = false := by
        simpa [List.isEmpty_iff] using hne
      simp only [hie, Bool.false_eq_true, if_false]
      exact hdabs

theorem posixJoin_abs {a : List Char} (b : List Char)
    (ha : a.head? = some '/') : (posixJoin a b).head? = some '/' := by
  have hane : a ≠ [] := by
    intro h
    rw [h] at ha
    simp at ha
  simp only [posixJoin]
  cases hb : b.head? == some '/' with
  | true =>
    simp only [hb, if_true]
    exact eq_of_beq hb
  | false =>
    simp only [hb, Bool.false_eq_true, if_false]
    cases hcond : (a.isEmpty || a.getLast? == some '/') with
    | true =>
      simp only [hcond, if_true]
      rw [head?_append_of_ne_nil b hane]
      exact ha
    | false =>
      simp only [hcond, Bool.false_eq_true, if_false]
      have : a ++ '/' :: b = a ++ ['/'] ++ b := by simp
      rw [this, head?_append_of_ne_nil _ (by simp [hane]),
          head?_append_of_ne_nil _ hane]
      exact ha

theorem posixNormpath_abs {p : List Char} (hp : p.head? = some '/') :
    (posixNormpath p).head? = some '/' := by
  have hpne : p ≠ [] := by
    intro h
    rw [h] at hp
    simp at hp
  have hie : p.isEmpty = false := by simpa [List.isEmpty_iff] using hpne
  have hh : (p.head? == some '/') = true := by simp [hp]
  simp only [posixNormpath, hie, Bool.false_eq_true, if_false, hh, if_true]
  cases hc : pyStartsWith p ['/', '/'] && !(pyStartsWith p ['/', '/', '/']) with
  | true => simp [hc]
  | false => simp [hc]

theorem remote_double_abs (f : List Char → Bool) (n : List Char)
    {p : List Char} (hp : isAbsPath p) : isAbsPath (remote_double f n p) := by
  rw [remote_double]
  split
  · exact parentOf_abs hp
  · simp only
    split
    · exact posixJoin_abs n hp
    · exact hp

theorem send_term_path_abs (ch : Bool) (t : List Char) {p : List Char}
    (hp : isAbsPath p) : isAbsPath ((send_term ch t p).path) := by
  rw [send_term]
  split
  · exact hp
  · simp only
    split
    · exact posixNormpath_abs (posixJoin_abs _ hp)
    · exact hp

theorem applyNav_abs (f : List Char → Bool) (ch : Bool) (op : NavOp)
    {p : List Char} (hp : isAbsPath p) : isAbsPath (applyNav f ch op p) := by
  cases op with
  | double n => exact remote_double_abs f n hp
  | term t => exact send_term_path_abs ch t hp

/-- C9: starting from any slash-rooted remote path, every sequence of
remote-browser double clicks (parent marker, directory descent, or file
open) and terminal inputs (including lexical "cd" resolution) leaves
`remote_path` slash-rooted. -/
theorem remote_path_stays_absolute (is_dir : List Char → Bool)
    (channel_open : Bool) (ops : List NavOp) (p : List Char)
    (hp : isAbsPath p) :
    isAbsPath (ops.foldl (fun q op => applyNav is_dir channel_open op q) p) := by
  induction ops generalizing p with
  | nil => exact hp
  | cons op rest ih => exact ih _ (applyNav_abs is_dir channel_open op hp)

/-- Witness for C9: from "/" the sequence cd into "a/b", double click a
directory "x", then "..", ends at a slash-rooted path. -/
theorem remote_path_stays_absolute_witness :
    isAbsPath "/".data ∧
    isAbsPath ([NavOp.term "cd a/b".data, NavOp.double "x".data,
        NavOp.double "..".data].foldl
      (fun q op => applyNav (fun _ => true) true op q) "/".data) :=
  ⟨by decide,
   remote_path_stays_absolute (fun _ => true) true
     [NavOp.term "cd a/b".data, NavOp.double "x".data, NavOp.double "..".data]
     "/".data (by decide)⟩

/-- C5: for a shell input of the form "cd arg" (no surrounding
whitespace, clean argument) entered while the shell channel is open, the
remote cursor becomes the lexical resolution
`posixNormpath (posixJoin remote_path arg)` (a pure string computation:
no filesystem oracle appears), exactly one remote listing refresh is
triggered, and the raw text plus a newline is the only message written
to the shell channel. -/
theorem send_term_cd_updates_cursor (text arg p : List Char)
    (h1 : text = "cd ".data ++ arg) (h2 : pyStrip text = text)
    (h3 : pyStrip arg = arg) :
    send_term true text p =
      { path := posixNormpath (posixJoin p arg), refreshes := 1,
        sent := [text ++ "\n".data] } := by
  subst h1
  have hne : (("cd ".data ++ arg).isEmpty) = false := rfl
  have hsw : pyStartsWith ("cd ".data ++ arg) "cd ".data = true := by
    show pyStartsWith ('c' :: 'd' :: ' ' :: arg) ('c' :: 'd' :: ' ' :: []) = true
    simp [pyStartsWith]
  have hdrop : ("cd ".data ++ arg).drop 3 = arg := by
    show ('c' :: 'd' :: ' ' :: arg).drop 3 = arg
    rfl
  simp only [send_term, h2, hne, Bool.false_eq_true, if_false, hsw, if_true,
    hdrop, h3]

/-- Witness for C5 at the spec's example: "cd sub" from "/a" moves the
cursor to "/a/sub", refreshes once, and sends the raw line. -/
theorem send_term_cd_updates_cursor_witness :
    pyStrip "cd sub".data = "cd sub".data ∧
    send_term true "cd sub".data "/a".data =
      { path := "/a/sub".data, refreshes := 1, sent := ["cd sub\n".data] } := by
  constructor
  · decide
  · rw [send_term_cd_updates_cursor "cd sub".data "sub".data "/a".data
      (by decide) (by decide) (by decide)]
    decide

/-- C1 counterexample: with a listing that shows ".." and "notes.txt",
a failing refresh does NOT leave the previous contents on screen — the
widget was cleared before the failing call left only the parent
marker. -/
theorem list_remote_files_failure_clears_view :
    (list_remote_files (.error "listdir failed") "/home".data
        { items := ["..".data, "notes.txt".data],
          label := "Remote: /home".data }).1.items ≠
      ["..".data, "notes.txt".data] := by
  decide

/-- C1 amended: a failing stat/list is caught and logged (the function is
total, and the log slot carries the error), but the view is cleared down
to the already-added parent marker ".."; only the label keeps its
previous text. -/
theorem list_remote_files_failure_shows_parent_only
    (e : String) (rp : List Char) (st : RemoteBrowser) :
    list_remote_files (.error e) rp st =
      ({ items := ["..".data], label := st.label }, some e) := rfl

/-- C2 counterexample: deleting a non-empty directory makes `sftp.remove`
raise and then the fallback `sftp.rmdir` raise inside the handler, and
that second error propagates past `delete_remote` — it is not
swallowed. -/
theorem delete_remote_nonempty_dir_raises :
    (delete_remote (.error "is a directory")
        (.error "directory not empty")).1 =
      Except.error "directory not empty" := rfl

/-- C2 amended: file deletion is attempted first and, if it fails,
directory deletion is attempted; a file-deletion failure recovered by a
successful directory deletion is swallowed (and the listing is
refreshed), but when the fallback directory deletion also fails (as for
a non-empty directory) that second error propagates past the caller and
the listing refresh is skipped, leaving the listing unaltered. -/
theorem delete_fallback_failure_propagates
    (r : Except String Unit) (e1 e2 : String) :
    delete_remote (.ok ()) r = (.ok (), 1) ∧
    delete_remote (.error e1) (.ok ()) = (.ok (), 1) ∧
    delete_remote (.error e1) (.error e2) = (.error e2, 0) ∧
    delete_local (.ok ()) r = (.ok (), 1) ∧
    delete_local (.error e1) (.ok ()) = (.ok (), 1) ∧
    delete_local (.error e1) (.error e2) = (.error e2, 0) := by
  refine ⟨?_, rfl, rfl, ?_, rfl, rfl⟩ <;> cases r <;> rfl

/-- C3 counterexample: when the filesystem-client close raises, the
transport close is never attempted — the three calls share one `try`
block and are not independent. -/
theorem close_tab_sftp_failure_skips_transport :
    (close_tab (.ok ()) (.error "sftp close failed")
        (.ok ())).transport_close_attempted = false := rfl

/-- C3 amended: the shell-reader close runs first and never raises (it
swallows its own channel error), and nothing ever propagates out of
`close_tab`; when the filesystem-client close succeeds all three closes
are attempted, but when it raises the transport close is skipped. -/
theorem close_tab_teardown_behavior
    (cc tc : Except String Unit) (e : String) :
    close_tab cc (.ok ()) tc =
      { terminal_close_attempted := true, sftp_close_attempted := true,
        transport_close_attempted := true, raised := none } ∧
    close_tab cc (.error e) tc =
      { terminal_close_attempted := true, sftp_close_attempted := true,
        transport_close_attempted := false, raised := none } := by
  cases cc <;> cases tc <;> exact ⟨rfl, rfl⟩

/-- C6: `upload_file name` copies the entry `name` under the local
cursor (source `os.path.join(local_path, name)`) to the same-named path
under the remote cursor (`posixpath.join(remote_path, name)`); a
successful put refreshes the remote listing exactly once with no error
surfaced, a failing put surfaces the error and refreshes nothing, and
both directory cursors are unchanged either way.  The conjunction ends
with the spec's concrete example: uploading "file.txt" with local
cursor "/home/u" and remote cursor "/srv" targets "/srv/file.txt". -/
theorem upload_file_spec (lp rp n : List Char) (e : String) :
    upload_file (.ok ()) lp rp n =
      { src := ntJoinName lp n, dst := posixJoin rp n, refreshes := 1,
        error := none, local_path := lp, remote_path := rp } ∧
    upload_file (.error e) lp rp n =
      { src := ntJoinName lp n, dst := posixJoin rp n, refreshes := 0,
        error := some e, local_path := lp, remote_path := rp } ∧
    (upload_file (.ok ()) "/home/u".data "/srv".data "file.txt".data).dst =
      "/srv/file.txt".data ∧
    (upload_file (.ok ()) "/home/u".data "/srv".data "file.txt".data).refreshes = 1 ∧
    (upload_file (.error e) "/home/u".data "/srv".data "file.txt".data).refreshes = 0 :=
  ⟨rfl, rfl, by decide, rfl, rfl⟩

/-- C7: the authentication call of `connect_all` is built from the
profile's username and password only: the call is invariant under any
change to the `keyfile` field, even though `get_data` accepts and stores
the dialog's keyfile text (empty text becoming `none`). -/
theorem connect_all_ignores_keyfile (cfg : Config) (k : Option (List Char))
    (f : DialogFields) :
    connect_all { cfg with keyfile := k } = connect_all cfg ∧
    (connect_all cfg).auth =
      { username := cfg.username, password := cfg.password } ∧
    (ConfigDialog.get_data f).keyfile =
      (if (pyStrip f.keyfile).isEmpty then none else some (pyStrip f.keyfile)) :=
  ⟨rfl, rfl, rfl⟩

/-- C8: a missing or unparsable persisted file never escapes to the
caller (both loaders are total functions of the storage state): the
profile registry loads as the empty collection and the theme loads as
the default `Theme()` record. -/
theorem load_defaults_on_missing_or_corrupt (e : String) :
    load_saved_configs none = [] ∧
    load_saved_configs (some (.error e)) = [] ∧
    ThemeManager.load none = ThemeManager.defaultTheme ∧
    ThemeManager.load (some (.error e)) = ThemeManager.defaultTheme :=
  ⟨rfl, rfl, rfl, rfl⟩

/-- C10: when the persisted profile file parses to anything that is not
a JSON list, `load_saved_configs` wraps the parsed value into a
one-element collection instead of rejecting it. -/
theorem load_saved_configs_wraps_non_list (j : Json) (h : j.isArr = false) :
    load_saved_configs (some (.ok j)) = [j] := by
  cases j with
  | arr l => exact absurd h (by simp [Json.isArr])
  | null => rfl
  | bool b => rfl
  | num n => rfl
  | str s => rfl
  | obj kvs => rfl

/-- Witness for C10 at a single profile object payload. -/
theorem load_saved_configs_wraps_non_list_witness :
    (Json.obj [("server".data, Json.str "h".data)]).isArr = false ∧
    load_saved_configs (some (.ok (Json.obj [("server".data, Json.str "h".data)]))) =
      [Json.obj [("server".data, Json.str "h".data)]] :=
  ⟨rfl, load_saved_configs_wraps_non_list _ rfl⟩
